import Mathlib

/-!
Verification of the AZ video worker (`src/az/az_worker.py`).

The worker scrapes a content page for video detail pages
(`get_video_detail_pages`), resolves each detail page to a direct `.mp4`
URL (`find_mp4_on_detail_page`), downloads the parts, merges them with
ffmpeg and uploads the result (`az_download_logic`), and runs this
pipeline over a worklist assigning consecutive sequence numbers to
successful rows (`main`).

This file shallowly embeds those functions.  HTML parsing itself
(BeautifulSoup) is abstracted: a parsed page is the list of anchor /
button facts the Python code reads off the soup, in document order.
All string computation that the code performs on attribute values —
`str.strip`, `str.lower`, `str.endswith`, substring tests, the regular
expressions, Python `%02d` formatting, slicing, and CPython 3.11's
`urllib.parse.urljoin` — is modelled character-exactly below.

A Python `set` of strings iterates in a hash-dependent order.  The
embedding therefore exposes the iteration order of the candidate set in
`get_video_detail_pages` as an explicit parameter, constrained only to
be a permutation of the set's elements (`ValidSetOrder`).
-/

/-- Characters of a string; all low-level models work on `List Char`. -/
abbrev Chars := List Char

def ofChars (l : Chars) : String := String.mk l

/-- Does `p` occur as a leading block of `l`?  (List-level `startswith`.) -/
def startsL : Chars → Chars → Bool
  | [], _ => true
  | _ :: _, [] => false
  | a :: p, b :: l => a == b && startsL p l

/-- Does `p` occur as a trailing block of `l`?  (Python `str.endswith`.) -/
def endsL (p l : Chars) : Bool := startsL p.reverse l.reverse

/-- Does `p` occur as a contiguous substring of `l`?  (Python `in`.) -/
def hasSub (p : Chars) : Chars → Bool
  | [] => p.isEmpty
  | l@(_ :: t) => startsL p l || hasSub p t

/-- Python `str.lower` (ASCII case fold; the attribute values scanned by
the worker are ASCII). -/
def lowerL (l : Chars) : Chars := l.map Char.toLower

/-- Python whitespace for `str.strip()`. -/
def isPySpace (c : Char) : Bool :=
  c == ' ' || c == '\t' || c == '\n' || c == '\r' || c == '\x0b' || c == '\x0c'

/-- Python `str.strip()`. -/
def pyStrip (s : String) : String :=
  ofChars (((s.data.dropWhile isPySpace).reverse.dropWhile isPySpace).reverse)

/-- Split at the first occurrence of `c`: `some (before, after)`, the
separator removed, or `none` when `c` does not occur.  Models Python
`str.split(c, 1)` together with the `c in s` test. -/
def splitAtChar (c : Char) : Chars → Option (Chars × Chars)
  | [] => none
  | x :: t =>
    if x == c then some ([], t)
    else (splitAtChar c t).map (fun r => (x :: r.1, r.2))

/-- Python `s.split('/')`: always at least one (possibly empty) field. -/
def splitOnSlash : Chars → List Chars
  | [] => [[]]
  | c :: t =>
    match splitOnSlash t with
    | [] => [[c]]
    | h :: r => if c == '/' then [] :: h :: r else (c :: h) :: r

/-- Python `'/'.join(parts)`. -/
def joinSlash : List Chars → Chars
  | [] => []
  | [x] => x
  | x :: y :: r => x ++ '/' :: joinSlash (y :: r)

/-! ## CPython 3.11 `urllib.parse.urljoin`

Modelled field-for-field on `urllib/parse.py` of Python 3.11 (the
interpreter the worker runs under): `urlsplit` (WHATWG prefix strip and
tab/CR/LF removal, scheme detection, netloc split, fragment then query
split), the relative-path merge of `urljoin` (including the
`filter(None, segments[1:-1])` step and `'.'`/`'..'` resolution), and
`urlunsplit`'s reassembly, which drops empty query and fragment parts
and re-inserts `//` for netloc-carrying schemes.  The `params`
component (`';'` in the last path segment, handled by `urlparse`) never
arises for the URLs this worker manipulates and is not modelled; host
validation errors (bracketed IPv6 checks) are likewise out of scope. -/

structure UrlParts where
  scheme : Chars
  netloc : Chars
  path : Chars
  query : Chars
  fragment : Chars
deriving Repr, DecidableEq

/-- CPython `uses_relative` (Python 3.11). -/
def usesRelative : List String :=
  ["", "ftp", "http", "gopher", "nntp", "imap", "wais", "file", "https",
   "shttp", "mms", "prospero", "rtsp", "rtsps", "rtspu", "sftp", "svn",
   "svn+ssh", "ws", "wss"]

/-- CPython `uses_netloc` (Python 3.11). -/
def usesNetloc : List String :=
  ["", "ftp", "http", "gopher", "nntp", "telnet", "imap", "wais", "file",
   "mms", "https", "shttp", "snews", "prospero", "rtsp", "rtsps", "rtspu",
   "rsync", "svn", "svn+ssh", "sftp", "nfs", "git", "git+ssh", "ws", "wss"]

/-- CPython `scheme_chars`. -/
def schemeChar (c : Char) : Bool :=
  c.isAlpha || c.isDigit || c == '+' || c == '-' || c == '.'

/-- `urlsplit` input normalisation: left-strip C0 controls and space,
then remove every tab, CR and LF. -/
def pyUrlClean (l : Chars) : Chars :=
  (l.dropWhile (fun c => decide (c.toNat ≤ 32))).filter
    (fun c => !(c == '\t' || c == '\r' || c == '\n'))

/-- Scheme detection of `urlsplit`: a valid scheme before the first
`':'` is split off (lower-cased), otherwise the default applies. -/
def schemeSplit (defScheme url : Chars) : Chars × Chars :=
  match splitAtChar ':' url with
  | some (pre, post) =>
    match pre with
    | [] => (defScheme, url)
    | c :: rest =>
      if c.isAlpha && (c :: rest).all schemeChar then (lowerL (c :: rest), post)
      else (defScheme, url)
  | none => (defScheme, url)

def notNetlocDelim (c : Char) : Bool := !(c == '/' || c == '?' || c == '#')

/-- CPython `urlsplit` (without the `params` split of `urlparse`). -/
def urlsplitL (defScheme url0 : Chars) : UrlParts :=
  let url := pyUrlClean url0
  let sp := schemeSplit defScheme url
  let scheme := sp.1
  let url1 := sp.2
  let netloc := if startsL ['/', '/'] url1 then (url1.drop 2).takeWhile notNetlocDelim else []
  let url2 := if startsL ['/', '/'] url1 then (url1.drop 2).dropWhile notNetlocDelim else url1
  let fr := match splitAtChar '#' url2 with
    | some (a, f) => (a, f)
    | none => (url2, [])
  let qu := match splitAtChar '?' fr.1 with
    | some (a, q) => (a, q)
    | none => (fr.1, [])
  ⟨scheme, netloc, qu.1, qu.2, fr.2⟩

/-- CPython `urlunsplit`. -/
def urlunsplitL (p : UrlParts) : Chars :=
  let url := p.path
  let url :=
    if !p.netloc.isEmpty ||
       (!p.scheme.isEmpty && usesNetloc.contains (ofChars p.scheme) && !startsL ['/', '/'] url) then
      let url := if !url.isEmpty && !(url.head? == some '/') then '/' :: url else url
      '/' :: '/' :: (p.netloc ++ url)
    else url
  let url := if !p.scheme.isEmpty then p.scheme ++ ':' :: url else url
  let url := if !p.query.isEmpty then url ++ '?' :: p.query else url
  if !p.fragment.isEmpty then url ++ '#' :: p.fragment else url

def filterInteriorTail : List Chars → List Chars
  | [] => []
  | [y] => [y]
  | y :: z :: r =>
    if y.isEmpty then filterInteriorTail (z :: r) else y :: filterInteriorTail (z :: r)

/-- The `filter(None, segments[1:-1])` step of `urljoin`: empty interior
segments are removed, the first and last segments always survive. -/
def filterInterior : List Chars → List Chars
  | [] => []
  | [x] => [x]
  | x :: y :: r => x :: filterInteriorTail (y :: r)

/-- The `'.'` / `'..'` resolution loop of `urljoin` (`pop` on an empty
list is a no-op, as in the `except IndexError: pass`). -/
def resolveSegs : List Chars → List Chars → List Chars
  | [], acc => acc
  | s :: t, acc =>
    if s == ['.', '.'] then resolveSegs t acc.dropLast
    else if s == ['.'] then resolveSegs t acc
    else resolveSegs t (acc ++ [s])

/-- CPython 3.11 `urllib.parse.urljoin`. -/
def pyUrljoin (base url : String) : String :=
  if base = "" then url
  else if url = "" then base
  else
    let b := urlsplitL [] base.data
    let u := urlsplitL b.scheme url.data
    if !(u.scheme == b.scheme) || !(usesRelative.contains (ofChars u.scheme)) then url
    else if usesNetloc.contains (ofChars u.scheme) && !u.netloc.isEmpty then
      ofChars (urlunsplitL u)
    else
      let netloc := if usesNetloc.contains (ofChars u.scheme) then b.netloc else u.netloc
      if u.path.isEmpty then
        let query := if u.query.isEmpty then b.query else u.query
        ofChars (urlunsplitL ⟨u.scheme, netloc, b.path, query, u.fragment⟩)
      else
        let baseParts0 := splitOnSlash b.path
        let baseParts :=
          if baseParts0.getLast? == some ([] : Chars) then baseParts0 else baseParts0.dropLast
        let segments :=
          if u.path.head? == some '/' then splitOnSlash u.path
          else filterInterior (baseParts ++ splitOnSlash u.path)
        let resolved := resolveSegs segments []
        let resolved :=
          if segments.getLast? == some ['.'] || segments.getLast? == some ['.', '.'] then
            resolved ++ [([] : Chars)]
          else resolved
        let joined := joinSlash resolved
        let path := if joined.isEmpty then ['/'] else joined
        ofChars (urlunsplitL ⟨u.scheme, netloc, path, u.query, u.fragment⟩)

-- Reference outputs of CPython 3.11 `urljoin` on the joins exercised below.
example : pyUrljoin "https://" "/path/video.mp4" = "https:///path/video.mp4" := by decide
example : pyUrljoin "https://www.aznude.com" "foo.jpg#" = "https://www.aznude.com/foo.jpg" := by
  decide
example : pyUrljoin "https://www.aznude.com" "baz.html" = "https://www.aznude.com/baz.html" := by
  decide
example : pyUrljoin "https://www.aznude.com/foo/bar.html" "baz.html"
    = "https://www.aznude.com/foo/baz.html" := by decide
example : pyUrljoin "https://www.aznude.com" "http://other.com/a.html"
    = "http://other.com/a.html" := by decide
example : pyUrljoin "https://www.aznude.com" "//cdn.com/v.mp4" = "https://cdn.com/v.mp4" := by
  decide
example : pyUrljoin "https://www.aznude.com" "a/../b.html" = "https://www.aznude.com/b.html" := by
  decide
example : pyUrljoin "https://www.aznude.com" "a.jpg/.." = "https://www.aznude.com/" := by decide
example : pyUrljoin "https://www.aznude.com" "" = "https://www.aznude.com" := by decide

/-! ## Detail-Page Locator (`get_video_detail_pages`, az_worker.py:28-82)

A parsed content page is abstracted to the list of `<a href=...>`
elements that BeautifulSoup's `find_all("a", href=True)` yields inside
the scanned scope (the `single-page_content-container` div, or the
whole document as fallback), in document order, each carrying the
attribute values the code reads. -/

structure MAnchor where
  href : String
  dataType : Option String := none
  eid : String := ""
deriving Repr, DecidableEq

/-- `BASE_URL` (az_worker.py:25). -/
def BASE_URL : String := "https://www.aznude.com"

/-- The image-extension test of az_worker.py:46:
`href.lower().endswith(('.jpg', '.jpeg', '.png', '.gif', '.webp'))`. -/
def isImageHref (href : String) : Bool :=
  [".jpg", ".jpeg", ".png", ".gif", ".webp"].any
    (fun s => endsL s.data (lowerL href.data))

/-- Hex-digit class of the lowered string (`[a-f0-9]` with `re.I`). -/
def isHexLow (c : Char) : Bool :=
  c.isDigit || ('a' ≤ c && c ≤ 'f')

/-- Scan for `re.search(r'[a-f0-9]{8,}-?hd', href, re.I)` on the
lowered character list.  Since neither `'h'` nor `'-'` is a hex digit,
the regex matches exactly when some maximal hex run of length ≥ 8 is
followed by `hd` or `-hd`. -/
def hdScan : Chars → Bool
  | [] => false
  | l@(_ :: t) =>
    (decide (8 ≤ (l.takeWhile isHexLow).length) &&
      (startsL ['h', 'd'] (l.dropWhile isHexLow) ||
       startsL ['-', 'h', 'd'] (l.dropWhile isHexLow)))
    || hdScan t

def hdRegexSearch (href : String) : Bool := hdScan (lowerL href.data)

example : hdRegexSearch "abc12345-hd.html" = true := by decide
example : hdRegexSearch "ABCDEF12hd" = true := by decide
example : hdRegexSearch "1234567hd" = false := by decide
example : hdRegexSearch "xx0123456789-HD-y" = true := by decide
example : hdRegexSearch "deadbeefh d" = false := by decide

/-- The `clean_path = eid.lstrip("/")` value of az_worker.py:56. -/
def eidClean (a : MAnchor) : String :=
  ofChars (a.eid.data.dropWhile (fun c => c == '/'))

/-- The per-anchor acceptance logic of az_worker.py:42-71, returning the
value added to the `candidates` set, if any. -/
def acceptAnchor (a : MAnchor) : Option String :=
  if isImageHref (pyStrip a.href) then none
  else if a.dataType == some "video" then some (pyStrip a.href)
  else if !(a.eid == "") && hasSub "/embed/".data a.eid.data then
    if endsL ".html".data (eidClean a).data then some (eidClean a) else none
  else if endsL ".html".data (pyStrip a.href).data &&
      (hdRegexSearch (pyStrip a.href) || hasSub "/mrskin/".data (pyStrip a.href).data ||
       hasSub "/azncdn/".data (pyStrip a.href).data) then
    some (pyStrip a.href)
  else none

/-- The values added to the `candidates` set, in document order (with
duplicates, which the set collapses). -/
def accepted_paths (doc : List MAnchor) : List String :=
  doc.filterMap acceptAnchor

def dedupFirstAux : List String → List String → List String
  | [], _ => []
  | x :: t, seen =>
    if seen.contains x then dedupFirstAux t seen else x :: dedupFirstAux t (x :: seen)

/-- The elements of the Python set `candidates`, listed in first-insertion
order.  The set holds exactly these strings; its iteration order is
hash-dependent and is modelled as a separate parameter. -/
def pysetElems (l : List String) : List String := dedupFirstAux l []

/-- The deduplicating full-URL loop of az_worker.py:74-80, joining each
candidate path against `base`. -/
def fullUrlsAux (base : String) : List String → List String → List String
  | [], _ => []
  | p :: t, seen =>
    let full := pyUrljoin base p
    if seen.contains full then fullUrlsAux base t seen
    else full :: fullUrlsAux base t (full :: seen)

/-- `get_video_detail_pages` (az_worker.py:28-82).  `order` is the
iteration order of the `candidates` set; the function's output is fully
determined by it.  The connection to the parsed page is the
`ValidSetOrder` constraint below. -/
def get_video_detail_pages (order : List String) : List String :=
  fullUrlsAux BASE_URL order []

/-- `order` is an admissible iteration order of the `candidates` set
built from `doc`: a permutation of the set's elements. -/
abbrev ValidSetOrder (doc : List MAnchor) (order : List String) : Prop :=
  order.Perm (pysetElems (accepted_paths doc))

/-- Modelled from the spec: the Locator output in the order the
accepted hrefs were first encountered in the document ("return in the
order first encountered", "insertion order by first encounter"). -/
def locator_first_encounter (doc : List MAnchor) : List String :=
  fullUrlsAux BASE_URL (pysetElems (accepted_paths doc)) []

/-- Modelled from the spec: "Resolve every accepted href against the
page's own URL to an absolute form" — identical to the code's loop
except that hrefs are joined against the content page's own URL rather
than the constant `BASE_URL`. -/
def locator_resolved_against_page (pageUrl : String) (order : List String) : List String :=
  fullUrlsAux pageUrl order []

example :
    accepted_paths [⟨"a.html", some "video", ""⟩, ⟨"pic.JPG", some "video", ""⟩,
      ⟨"x.html", none, "/embed/x.html"⟩, ⟨"deadbeef99-hd.html", none, ""⟩,
      ⟨"plain.html", none, ""⟩]
    = ["a.html", "embed/x.html", "deadbeef99-hd.html"] := by decide

example :
    get_video_detail_pages ["a.html", "b.html", "a.html"]
    = ["https://www.aznude.com/a.html", "https://www.aznude.com/b.html"] := by decide

/-! ## Media-Link Resolver (`find_mp4_on_detail_page`, az_worker.py:85-120)

A parsed detail page is abstracted to the element facts the code reads:
the `<a href=...>` elements in document order, each with the class
strings of its nested `<button>` descendants, and the `<button>`
elements in document order, each with its class string and the href of
its nearest enclosing `<a>` ancestor (if any). -/

structure DAnchor where
  href : String
  btnClasses : List String := []
deriving Repr, DecidableEq

structure DButton where
  classStr : String
  parentHref : Option String := none
deriving Repr, DecidableEq

structure DetailDoc where
  anchors : List DAnchor := []
  buttons : List DButton := []
deriving Repr, DecidableEq

/-- `re.compile(r"(?i)download|single-video-download")` searched in a
class string: since the second alternative contains the first, the
regex matches exactly when `download` occurs case-insensitively. -/
def downloadClassPat (cls : String) : Bool :=
  hasSub "download".data (lowerL cls.data)

/-- Scan for `btn.*down` in the lowered class string: some occurrence
of `btn` followed (anywhere later) by `down`. -/
def btnDownScan : Chars → Bool
  | [] => false
  | l@(_ :: t) =>
    (startsL ['b', 't', 'n'] l && hasSub ['d', 'o', 'w', 'n'] (l.drop 3)) || btnDownScan t

/-- `re.compile(r"(?i)download|btn.*down")` searched in a class string. -/
def downloadBtnClassPat (cls : String) : Bool :=
  hasSub "download".data (lowerL cls.data) || btnDownScan (lowerL cls.data)

/-- `".mp4" in href.lower()` (az_worker.py:101,114). -/
def hasMp4Sub (href : String) : Bool :=
  hasSub ".mp4".data (lowerL href.data)

/-- Scan for `re.compile(r"\.mp4(?:$|\?|#)", re.I)` on the lowered
characters: `.mp4` at end of string or before `'?'` or `'#'`. -/
def mp4EndScan : Chars → Bool
  | [] => false
  | l@(_ :: t) =>
    (startsL ['.', 'm', 'p', '4'] l &&
      (match l.drop 4 with
       | [] => true
       | c :: _ => c == '?' || c == '#'))
    || mp4EndScan t

def mp4EndRegexSearch (href : String) : Bool := mp4EndScan (lowerL href.data)

example : mp4EndRegexSearch "a.MP4" = true := by decide
example : mp4EndRegexSearch "a.mp4?x" = true := by decide
example : mp4EndRegexSearch "b.mp4#f" = true := by decide
example : mp4EndRegexSearch "c.mp4x" = false := by decide
example : mp4EndRegexSearch ".mp4inside.html" = false := by decide

/-- Strategy 1 (az_worker.py:97-102): first `<a>` wrapping a
download-classed `<button>` whose own href contains `.mp4`. -/
def strat1 (d : DetailDoc) : Option String :=
  (d.anchors.find? (fun a => a.btnClasses.any downloadClassPat && hasMp4Sub a.href)).map
    (fun a => a.href)

/-- Strategy 2 (az_worker.py:104-107): first `<a>` whose href matches
the anchored `.mp4` pattern. -/
def strat2 (d : DetailDoc) : Option String :=
  (d.anchors.find? (fun a => mp4EndRegexSearch a.href)).map (fun a => a.href)

/-- Strategy 3 (az_worker.py:109-115): first download-classed
`<button>` whose enclosing `<a>` has an href containing `.mp4`. -/
def strat3 (d : DetailDoc) : Option String :=
  d.buttons.findSome? (fun b =>
    if downloadBtnClassPat b.classStr then
      match b.parentHref with
      | some h => if hasMp4Sub h then some h else none
      | none => none
    else none)

/-- The strategy cascade over a fetched, parsed detail page
(az_worker.py:97-117). -/
def find_mp4_doc (d : DetailDoc) : Option String × Option String :=
  match strat1 d with
  | some h => (some h, none)
  | none =>
    match strat2 d with
    | some h => (some h, none)
    | none =>
      match strat3 d with
      | some h => (some h, none)
      | none => (none, some "No MP4 link pattern found")

/-- Outcome of `requests.get(detail_url, ...)` followed by parsing:
either a raised exception (any transport or parse failure inside the
`try` block) with its `str(e)` text, or a response with its status code
and parsed body. -/
inductive FetchOutcome where
  | exc (msg : String)
  | resp (status : Nat) (doc : DetailDoc)
deriving Repr

/-- Python slicing `s[:70]` (az_worker.py:120). -/
def pyTake70 (s : String) : String := ofChars (s.data.take 70)

/-- `find_mp4_on_detail_page` (az_worker.py:85-120). -/
def find_mp4_on_detail_page (f : FetchOutcome) : Option String × Option String :=
  match f with
  | .exc e => (none, some (pyTake70 e))
  | .resp st d =>
    if 400 ≤ st then (none, some ("HTTP " ++ toString st))
    else find_mp4_doc d

example :
    find_mp4_on_detail_page (.resp 200 ⟨[⟨"/v/a.mp4", ["single-video-download"]⟩], []⟩)
    = (some "/v/a.mp4", none) := by decide
example :
    find_mp4_on_detail_page (.resp 404 ⟨[⟨"/v/a.mp4", ["single-video-download"]⟩], []⟩)
    = (none, some "HTTP 404") := by decide
example :
    find_mp4_on_detail_page (.resp 200 ⟨[⟨"page.html", []⟩], []⟩)
    = (none, some "No MP4 link pattern found") := by decide
example :
    find_mp4_on_detail_page (.resp 200 ⟨[], [⟨"btn btn-down", some "/x/B.MP4?tok=1"⟩]⟩)
    = (some "/x/B.MP4?tok=1", none) := by decide

/-! ## Record pipeline (`az_download_logic`, az_worker.py:123-190)

The pipeline's interactions with the outside world (page fetch, per
detail-page fetch, per-URL segment download, the ffmpeg subprocess and
the uploader) are supplied as an environment; the control flow,
including the `try`/`except`/`finally` structure, is translated
directly.  The second component of the result records whether the
temporary directory created by `tempfile.mkdtemp` still exists when the
function returns; the `finally: shutil.rmtree(temp_dir, ...)` clause
runs on every exit path. -/

structure AzEnv where
  /-- Outcome of `requests.get(link, ...)` (az_worker.py:128): a raised
  exception with its `str(e)`, or a response with status code and the
  parsed main page. -/
  page : Except String (Nat × List MAnchor)
  /-- `str(e)` of the `HTTPError` that `resp.raise_for_status()` raises
  for a status `≥ 400`. -/
  httpMsg : Nat → String
  /-- Iteration order of the `candidates` set inside
  `get_video_detail_pages` on this run. -/
  order : List String
  /-- Outcome of fetching each detail URL (az_worker.py:91). -/
  detail : String → FetchOutcome
  /-- Per-URL segment download (az_worker.py:152-158): `some msg` when
  the request or streaming raised, `none` on success. -/
  download : String → Option String
  /-- `some msg` when `subprocess.run(ffmpeg..., check=True)` raised
  `CalledProcessError` (az_worker.py:168-179). -/
  ffmpegErr : Option String
  /-- `upload_file(output, identifier)` (az_worker.py:182). -/
  upload : String → String → Bool × String

/-- Python `f"{n:02d}"` for a non-negative `n`. -/
def pad2 (n : Nat) : String :=
  if n < 10 then "0" ++ toString n else toString n

/-- The segment file name `f"part_{i:02d}.mp4"` (az_worker.py:151). -/
def part_filename (i : Nat) : String :=
  "part_" ++ pad2 i ++ ".mp4"

/-- The base names of the local segment files the download loop creates
for an ordered list of media URLs, in creation order (az_worker.py:150-158;
all live in the same temporary directory). -/
def segment_filenames (links : List String) : List String :=
  (List.range links.length).map part_filename

/-- The absolute-URL fixup of az_worker.py:142:
`urljoin("https://", mp4_url) if mp4_url.startswith("/") else mp4_url`. -/
def make_full_mp4 (u : String) : String :=
  if startsL ['/'] u.data then pyUrljoin "https://" u else u

/-- The successful-resolution collection loop of az_worker.py:137-143. -/
def resolve_mp4_links (detail : String → FetchOutcome) (urls : List String) : List String :=
  urls.filterMap (fun u =>
    match find_mp4_on_detail_page (detail u) with
    | (some m, _) => some (make_full_mp4 m)
    | (none, _) => none)

/-- The download loop raises at the first URL whose fetch fails
(az_worker.py:150-158). -/
def firstDownloadErr (dl : String → Option String) : List String → Option String
  | [] => none
  | u :: t =>
    match dl u with
    | some e => some e
    | none => firstDownloadErr dl t

/-- `f"{number:02d} - {title.replace('/', '_')}.mp4"` (az_worker.py:166). -/
def output_name (number : Nat) (title : String) : String :=
  pad2 number ++ " - " ++ ofChars (title.data.map (fun c => if c == '/' then '_' else c)) ++ ".mp4"

/-- The `try` block of `az_download_logic` (az_worker.py:126-182):
`.error` is a raised exception reaching the `except` clause, `.ok` a
normal return value. -/
def az_body (title : String) (number : Nat) (identifier : String) (env : AzEnv) :
    Except String (Bool × String) :=
  match env.page with
  | .error e => .error e
  | .ok (st, _doc) =>
    if 400 ≤ st then .error (env.httpMsg st)
    else
      let urls := get_video_detail_pages env.order
      if urls.isEmpty then .ok (false, "No video detail HTML pages found")
      else
        let links := resolve_mp4_links env.detail urls
        if links.isEmpty then
          .ok (false, "No MP4 links found after checking " ++ toString urls.length ++ " pages")
        else
          match firstDownloadErr env.download links with
          | some e => .error e
          | none =>
            match env.ffmpegErr with
            | some e => .error e
            | none => .ok (env.upload (output_name number title) identifier)

/-- `az_download_logic` (az_worker.py:123-190): the `except Exception`
boundary turns a raised exception into `(False, str(e))`, and the
`finally` clause removes the temporary directory on every path.  The
second component is `true` iff the temporary directory still exists
after the function returns. -/
def az_download_logic (title : String) (number : Nat) (identifier : String) (env : AzEnv) :
    (Bool × String) × Bool :=
  let result :=
    match az_body title number identifier env with
    | .ok r => r
    | .error e => (false, e)
  (result, false)

/-! ## Worklist loop (`main`, az_worker.py:193-213) -/

/-- One `update_row` call: the assigned-number cell is `none` for the
blank string the code writes on failure. -/
structure SheetUpdate where
  row : Nat
  status : String
  number : Option Nat
  message : String
deriving Repr, DecidableEq

/-- The loop of `main` (az_worker.py:197-213) over the pending rows.
Each row is abstracted to its row number together with the
`(success, msg)` pair its `az_download_logic` call returns; `current`
is `current_number`, seeded from `get_max_assigned_number`.  The result
is the sequence of `update_row` calls. -/
def main_loop : List (Nat × Bool × String) → Nat → List SheetUpdate
  | [], _ => []
  | (row, ok, msg) :: rest, current =>
    if ok then ⟨row, "DONE", some (current + 1), ""⟩ :: main_loop rest (current + 1)
    else ⟨row, "FAILED", none, msg⟩ :: main_loop rest current

example :
    main_loop [(2, true, ""), (3, false, "boom"), (4, true, "")] 7
    = [⟨2, "DONE", some 8, ""⟩, ⟨3, "FAILED", none, "boom"⟩, ⟨4, "DONE", some 9, ""⟩] := by
  decide

/-! ## Lexicographic order on file names

Python compares strings code point by code point; `sorted` on the
segment file names therefore orders them by `lexLt`.  A stable sort
leaves a list unchanged exactly when consecutive elements are
non-decreasing, so "a lexical sort of the filenames reproduces the
input order" is `lexNondecreasing`, and the strict `lexSorted` is the
corresponding strengthening for pairwise-distinct names. -/

def lexLt : Chars → Chars → Bool
  | [], [] => false
  | [], _ :: _ => true
  | _ :: _, [] => false
  | a :: s, b :: t => decide (a.toNat < b.toNat) || (a.toNat == b.toNat && lexLt s t)

def lexLe (a b : Chars) : Bool := lexLt a b || a == b

def lexSorted (l : List String) : Prop :=
  l.Pairwise (fun a b => lexLt a.data b.data = true)

def lexNondecreasing (l : List String) : Prop :=
  l.Pairwise (fun a b => lexLe a.data b.data = true)

theorem lexLt_trans : ∀ a b c : Chars, lexLt a b = true → lexLt b c = true → lexLt a c = true := by
  intro a
  induction a with
  | nil =>
    intro b c h1 h2
    cases b with
    | nil => simp [lexLt] at h1
    | cons y t =>
      cases c with
      | nil => simp [lexLt] at h2
      | cons z u => simp [lexLt]
  | cons x s ih =>
    intro b c h1 h2
    cases b with
    | nil => simp [lexLt] at h1
    | cons y t =>
      cases c with
      | nil => simp [lexLt] at h2
      | cons z u =>
        simp only [lexLt, Bool.or_eq_true, Bool.and_eq_true, decide_eq_true_eq,
          beq_iff_eq] at h1 h2 ⊢
        rcases h1 with h1 | ⟨hxy, h1⟩ <;> rcases h2 with h2 | ⟨hyz, h2⟩
        · exact Or.inl (by omega)
        · exact Or.inl (by omega)
        · exact Or.inl (by omega)
        · exact Or.inr ⟨by omega, ih t u h1 h2⟩

instance : IsTrans String (fun a b => lexLt a.data b.data = true) :=
  ⟨fun _ _ _ h1 h2 => lexLt_trans _ _ _ h1 h2⟩

/-! ## Helper lemmas -/

theorem startsL_head (a : Char) (p l : Chars) (h : startsL (a :: p) l = true) :
    l.head? = some a := by
  cases l with
  | nil => simp [startsL] at h
  | cons b t =>
    simp only [startsL, Bool.and_eq_true, beq_iff_eq] at h
    simp [h.1]

theorem startsL_map (f : Char → Char) : ∀ p l : Chars, startsL p l = true →
    startsL (p.map f) (l.map f) = true := by
  intro p
  induction p with
  | nil => intro l _; simp [startsL]
  | cons a q ih =>
    intro l h
    cases l with
    | nil => simp [startsL] at h
    | cons b t =>
      simp only [startsL, Bool.and_eq_true, beq_iff_eq] at h
      simp only [List.map_cons, startsL, Bool.and_eq_true, beq_iff_eq]
      exact ⟨by rw [h.1], ih t h.2⟩

theorem endsL_head_rev (p l : Chars) (c : Char) (rest : Chars)
    (hp : p.reverse = c :: rest) (h : endsL p l = true) : l.reverse.head? = some c := by
  unfold endsL at h
  rw [hp] at h
  exact startsL_head c rest l.reverse h

theorem mem_fullUrlsAux (base : String) : ∀ (ps seen : List String) (u : String),
    u ∈ fullUrlsAux base ps seen → ∃ p ∈ ps, u = pyUrljoin base p := by
  intro ps
  induction ps with
  | nil => intro seen u h; simp [fullUrlsAux] at h
  | cons p t ih =>
    intro seen u h
    simp only [fullUrlsAux] at h
    split at h
    · rcases ih _ u h with ⟨q, hq, he⟩
      exact ⟨q, List.mem_cons_of_mem p hq, he⟩
    · rcases List.mem_cons.mp h with he | hm
      · exact ⟨p, List.mem_cons_self p t, he⟩
      · rcases ih _ u hm with ⟨q, hq, he⟩
        exact ⟨q, List.mem_cons_of_mem p hq, he⟩

theorem mem_dedupFirstAux : ∀ (l seen : List String) (x : String),
    x ∈ dedupFirstAux l seen → x ∈ l := by
  intro l
  induction l with
  | nil => intro seen x h; simp [dedupFirstAux] at h
  | cons p t ih =>
    intro seen x h
    simp only [dedupFirstAux] at h
    split at h
    · exact List.mem_cons_of_mem p (ih _ x h)
    · rcases List.mem_cons.mp h with he | hm
      · exact he ▸ List.mem_cons_self p t
      · exact List.mem_cons_of_mem p (ih _ x hm)

/-! ## Claim C1 -/

/-- A content page with two accepted video anchors, in document order
`a.html` before `b.html`. -/
def c1doc : List MAnchor :=
  [⟨"a.html", some "video", ""⟩, ⟨"b.html", some "video", ""⟩]

/-- C1: the claim asserts that the Locator returns accepted URLs in
first-encounter document order and deterministically across runs.  The
code iterates a Python `set` (az_worker.py:40,76), whose string
iteration order is hash-randomised per run.  On `c1doc` both
enumeration orders of the candidate set are admissible runs, they
produce different outputs, and one of them differs from the
first-encounter order the claim (and spec §8) requires. -/
theorem c1_set_iteration_order_bug :
    ValidSetOrder c1doc ["a.html", "b.html"]
    ∧ ValidSetOrder c1doc ["b.html", "a.html"]
    ∧ get_video_detail_pages ["b.html", "a.html"]
        ≠ get_video_detail_pages ["a.html", "b.html"]
    ∧ get_video_detail_pages ["b.html", "a.html"] ≠ locator_first_encounter c1doc := by
  refine ⟨by decide, by decide, by decide, by decide⟩

/-! ## Claim C2 -/

/-- A content page (own URL `https://www.aznude.com/foo/bar.html`)
holding one accepted relative href `baz.html`. -/
def c2doc : List MAnchor := [⟨"baz.html", some "video", ""⟩]

/-- C2 counterexample: the code joins the accepted href against the
constant `BASE_URL`, not against the page's own URL; for the relative
href `baz.html` on the page `https://www.aznude.com/foo/bar.html` the
two resolutions differ, so the returned URL is not the href resolved
against the page's own URL. -/
theorem c2_resolve_base_counterexample :
    ValidSetOrder c2doc ["baz.html"]
    ∧ get_video_detail_pages ["baz.html"] = ["https://www.aznude.com/baz.html"]
    ∧ locator_resolved_against_page "https://www.aznude.com/foo/bar.html" ["baz.html"]
        = ["https://www.aznude.com/foo/baz.html"]
    ∧ get_video_detail_pages ["baz.html"]
        ≠ locator_resolved_against_page "https://www.aznude.com/foo/bar.html" ["baz.html"] := by
  refine ⟨by decide, by decide, by decide, by decide⟩

/-- C2 (amended): every URL the Locator returns is some accepted
candidate path resolved with `urljoin` against the constant site base
URL `https://www.aznude.com` — not against the content page's own
URL. -/
theorem c2_resolved_against_base_url (doc : List MAnchor) (order : List String)
    (h : ValidSetOrder doc order) :
    ∀ u ∈ get_video_detail_pages order, ∃ p ∈ accepted_paths doc, u = pyUrljoin BASE_URL p := by
  intro u hu
  rcases mem_fullUrlsAux BASE_URL order [] u hu with ⟨p, hp, he⟩
  exact ⟨p, mem_dedupFirstAux _ _ _ (h.mem_iff.mp hp), he⟩

theorem c2_resolved_against_base_url_witness :
    ∃ p ∈ accepted_paths c2doc, "https://www.aznude.com/baz.html" = pyUrljoin BASE_URL p :=
  c2_resolved_against_base_url c2doc ["baz.html"] (by decide)
    "https://www.aznude.com/baz.html" (by decide)

/-! ## Claim C4 -/

/-- C4: whenever the fetch or parse of a detail page raises, the
Resolver returns the `(None, reason)` pair with `reason = str(e)[:70]`,
whose length is at most 70 characters. -/
theorem c4_resolver_exception_bounded :
    ∀ e : String,
      find_mp4_on_detail_page (.exc e) = (none, some (pyTake70 e))
      ∧ (pyTake70 e).length ≤ 70 := by
  intro e
  refine ⟨rfl, ?_⟩
  show (e.data.take 70).length ≤ 70
  rw [List.length_take]
  exact min_le_left _ _

/-! ## Claim C5 -/

/-- C5: on every exit path of `az_download_logic` — normal success or
failure value out of the `try` block, or an exception converted by the
`except` clause — the `finally` clause has removed the temporary
working directory: the directory-exists flag of the result is `false`
for every environment. -/
theorem c5_temp_dir_removed :
    ∀ (title : String) (number : Nat) (identifier : String) (env : AzEnv),
      (az_download_logic title number identifier env).2 = false := by
  intro _ _ _ _
  rfl

/-! ## Claim C8 -/

/-- C8: a resolved media URL beginning with `/` is fetched as its
`urljoin` against the bare secure scheme `https://` (in particular
`/path/video.mp4` becomes `https:///path/video.mp4`), and a URL not
beginning with `/` is fetched unchanged; moreover every URL handed to
the download loop arises this way from a successfully resolved media
URL. -/
theorem c8_path_urls_joined_under_https :
    (∀ u : String, startsL ['/'] u.data = true → make_full_mp4 u = pyUrljoin "https://" u)
    ∧ (∀ u : String, startsL ['/'] u.data = false → make_full_mp4 u = u)
    ∧ make_full_mp4 "/path/video.mp4" = "https:///path/video.mp4"
    ∧ (∀ (detail : String → FetchOutcome) (urls : List String) (v : String),
        v ∈ resolve_mp4_links detail urls →
        ∃ m : String, (∃ u ∈ urls, (find_mp4_on_detail_page (detail u)).1 = some m)
          ∧ v = make_full_mp4 m) := by
  refine ⟨?_, ?_, by decide, ?_⟩
  · intro u h
    simp [make_full_mp4, h]
  · intro u h
    simp [make_full_mp4, h]
  · intro detail urls v hv
    rcases List.mem_filterMap.mp hv with ⟨u, hu, hmatch⟩
    rcases hfd : find_mp4_on_detail_page (detail u) with ⟨o1, o2⟩
    rw [hfd] at hmatch
    cases o1 with
    | none => exact absurd hmatch (by simp)
    | some m =>
      refine ⟨m, ⟨u, hu, by rw [hfd]⟩, ?_⟩
      have := Option.some.inj hmatch
      exact this.symm

theorem c8_path_urls_joined_under_https_witness :
    make_full_mp4 "/path/video.mp4" = pyUrljoin "https://" "/path/video.mp4" :=
  c8_path_urls_joined_under_https.1 "/path/video.mp4" (by decide)

/-! ## Claim C9 -/

/-- A content page with a single video-marked anchor whose href
`x.jpg#` does not end in an image suffix (it ends in `#`), but whose
`urljoin` against `BASE_URL` drops the empty fragment and does. -/
def c9doc : List MAnchor := [⟨"x.jpg#", some "video", ""⟩]

/-- C9 counterexample: the image-suffix filter is applied to the raw
href only.  The href `x.jpg#` passes it, is accepted through the
`data-type == "video"` branch, and resolves to
`https://www.aznude.com/x.jpg` because CPython's `urljoin` drops an
empty fragment — so the Locator returns a URL ending in `.jpg`. -/
theorem c9_image_url_counterexample :
    ValidSetOrder c9doc ["x.jpg#"]
    ∧ get_video_detail_pages ["x.jpg#"] = ["https://www.aznude.com/x.jpg"]
    ∧ isImageHref "https://www.aznude.com/x.jpg" = true := by
  refine ⟨by decide, by decide, by decide⟩

/-! ## Claim C6 -/

/-- C6: on a detail page containing both a strategy-1 match (an `<a>`
wrapping a download-classed `<button>` with `.mp4` in its href) and a
strategy-2 match (an `<a>` whose href matches the anchored `.mp4`
pattern), the Resolver returns the strategy-1 result: the href of the
first strategy-1 anchor, with no failure reason. -/
theorem c6_strategy_priority (d : DetailDoc)
    (h1 : ∃ a ∈ d.anchors, (a.btnClasses.any downloadClassPat && hasMp4Sub a.href) = true)
    (_h2 : ∃ a ∈ d.anchors, mp4EndRegexSearch a.href = true) :
    find_mp4_doc d = (strat1 d, none) ∧ (strat1 d).isSome := by
  have hs : (strat1 d).isSome = true := by
    unfold strat1
    rw [Option.isSome_map']
    exact List.find?_isSome.mpr h1
  refine ⟨?_, hs⟩
  cases ho : strat1 d with
  | none => rw [ho] at hs; simp at hs
  | some h => simp [find_mp4_doc, ho]

/-- A detail page with a strategy-1 anchor first and a further anchor
that only strategy 2 matches. -/
def c6doc : DetailDoc :=
  ⟨[⟨"/v/a.mp4", ["single-video-download"]⟩, ⟨"/plain.mp4", []⟩], []⟩

theorem c6_strategy_priority_witness :
    find_mp4_doc c6doc = (strat1 c6doc, none) ∧ (strat1 c6doc).isSome :=
  c6_strategy_priority c6doc (by decide) (by decide)

/-! ## Claim C9 (amended) -/

theorem endsL_false_of_last (q s : Chars) (c : Char) (rest : Chars)
    (hs : s.reverse = c :: rest) (hq : q.reverse.head? = some 'l') (hc : ¬ c = 'l') :
    endsL s q = false := by
  cases he : endsL s q
  · rfl
  · exfalso
    have hqc := endsL_head_rev s q c rest hs he
    rw [hqc] at hq
    exact hc (Option.some.inj hq)

/-- A path accepted with the `.html` suffix check cannot test as an
image href: its lowered form still ends in `l`, while every image
suffix ends in `g`, `f` or `p`. -/
theorem endsL_html_not_image (p : String) (h : endsL ".html".data p.data = true) :
    isImageHref p = false := by
  have h2 : startsL (['l', 'm', 't', 'h', '.'] : Chars) p.data.reverse = true := by
    have e : (".html".data.reverse : Chars) = ['l', 'm', 't', 'h', '.'] := by decide
    unfold endsL at h
    rw [e] at h
    exact h
  have h3 := startsL_map Char.toLower _ _ h2
  have e2 : ((['l', 'm', 't', 'h', '.'] : Chars).map Char.toLower) = ['l', 'm', 't', 'h', '.'] := by
    decide
  rw [e2, List.map_reverse] at h3
  have hq : ((lowerL p.data).reverse).head? = some 'l' := startsL_head _ _ _ h3
  have j1 : endsL ".jpg".data (lowerL p.data) = false :=
    endsL_false_of_last (lowerL p.data) ".jpg".data 'g' ['p', 'j', '.'] (by decide) hq (by decide)
  have j2 : endsL ".jpeg".data (lowerL p.data) = false :=
    endsL_false_of_last (lowerL p.data) ".jpeg".data 'g' ['e', 'p', 'j', '.'] (by decide) hq
      (by decide)
  have j3 : endsL ".png".data (lowerL p.data) = false :=
    endsL_false_of_last (lowerL p.data) ".png".data 'g' ['n', 'p', '.'] (by decide) hq (by decide)
  have j4 : endsL ".gif".data (lowerL p.data) = false :=
    endsL_false_of_last (lowerL p.data) ".gif".data 'f' ['i', 'g', '.'] (by decide) hq (by decide)
  have j5 : endsL ".webp".data (lowerL p.data) = false :=
    endsL_false_of_last (lowerL p.data) ".webp".data 'p' ['b', 'e', 'w', '.'] (by decide) hq
      (by decide)
  unfold isImageHref
  simp [j1, j2, j3, j4, j5]

theorem acceptAnchor_not_image (a : MAnchor) (p : String) (h : acceptAnchor a = some p) :
    isImageHref p = false := by
  unfold acceptAnchor at h
  split at h
  · exact absurd h (by simp)
  · rename_i h1
    rw [Bool.not_eq_true] at h1
    split at h
    · rw [← Option.some.inj h]
      exact h1
    · split at h
      · split at h
        · rename_i h4
          rw [← Option.some.inj h]
          exact endsL_html_not_image _ h4
        · exact absurd h (by simp)
      · split at h
        · rename_i h4
          rw [← Option.some.inj h]
          exact endsL_html_not_image _ ((Bool.and_eq_true _ _).mp h4).1
        · exact absurd h (by simp)

/-- C9 (amended): no path the Locator accepts into its candidate set —
href or embed-reference derived — ends, case-insensitively, in a known
image suffix.  (The returned absolute URLs can still end in an image
suffix when `urljoin` drops an empty `?`/`#` tail of an accepted href,
as `c9_image_url_counterexample` shows.) -/
theorem c9_no_accepted_image_path :
    ∀ (doc : List MAnchor) (p : String), p ∈ accepted_paths doc → isImageHref p = false := by
  intro doc p hp
  rcases List.mem_filterMap.mp hp with ⟨a, _, ha⟩
  exact acceptAnchor_not_image a p ha

theorem c9_no_accepted_image_path_witness :
    isImageHref "a.html" = false :=
  c9_no_accepted_image_path [⟨"a.html", some "video", ""⟩] "a.html" (by decide)

/-! ## Claim C3 -/

/-- Adjacent-pair check: each file name lexicographically below the
next. -/
def chainLtB : List String → Bool
  | [] => true
  | [_] => true
  | a :: b :: t => lexLt a.data b.data && chainLtB (b :: t)

theorem chainLtB_pairwise : ∀ l : List String, chainLtB l = true →
    l.Pairwise (fun a b => lexLt a.data b.data = true) := by
  intro l
  induction l with
  | nil => intro _; exact List.Pairwise.nil
  | cons a t ih =>
    cases t with
    | nil => intro _; simp
    | cons b t2 =>
      intro h
      simp only [chainLtB, Bool.and_eq_true] at h
      have hp := ih h.2
      refine List.Pairwise.cons ?_ hp
      intro x hx
      rcases List.mem_cons.mp hx with he | hx2
      · exact he ▸ h.1
      · exact lexLt_trans _ _ _ h.1 ((List.pairwise_cons.mp hp).1 x hx2)

/-- C3 counterexample: `%02d` pads to a minimum of two digits, not a
fixed width.  With 101 media URLs the file names `part_00.mp4` …
`part_100.mp4` are not lexically nondecreasing (`part_100.mp4` sorts
before `part_11.mp4`), so a lexical sort does not reproduce the input
order. -/
theorem c3_fixed_width_counterexample :
    ¬ lexNondecreasing (segment_filenames (List.replicate 101 "u")) := by
  intro h
  unfold lexNondecreasing segment_filenames at h
  rw [List.length_replicate] at h
  have hp := List.pairwise_iff_getElem.mp h 11 100 (by simp) (by simp) (by omega)
  simp only [List.getElem_map, List.getElem_range] at hp
  exact absurd hp (by decide)

/-- C3 (amended): for up to 100 media URLs — positional indices 0–99,
where `%02d` really is fixed-width — the segment file names are
strictly increasing in the lexicographic (code point) order, so sorting
them lexically reproduces the download order exactly. -/
theorem c3_lexical_order_up_to_100 (links : List String) (h : links.length ≤ 100) :
    lexSorted (segment_filenames links) := by
  have hbase : chainLtB ((List.range 100).map part_filename) = true := by decide
  have hpair := chainLtB_pairwise _ hbase
  unfold lexSorted segment_filenames
  exact hpair.sublist ((List.range_sublist.mpr h).map part_filename)

theorem c3_lexical_order_up_to_100_witness :
    lexSorted (segment_filenames ["u1", "u2", "u3"]) :=
  c3_lexical_order_up_to_100 ["u1", "u2", "u3"] (by decide)

/-! ## Claim C7 -/

/-- An environment whose page fetch succeeds with one accepted detail
page and whose detail-page fetch yields a page with no media-link
pattern, so the Resolver fails on every detail page. -/
def c7env : AzEnv :=
  ⟨.ok (200, [⟨"a.html", some "video", ""⟩]), fun st => "HTTP error " ++ toString st,
   ["a.html"], fun _ => .resp 200 ⟨[], []⟩, fun _ => none, none, fun _ _ => (true, "ok")⟩

/-- C7 counterexample: when one detail page is found and resolution
fails on it, the code returns the message
`"No MP4 links found after checking 1 pages"` (az_worker.py:146), not
the claimed `"no media links found after checking 1 pages"`. -/
theorem c7_message_counterexample :
    az_download_logic "t" 1 "id" c7env
      = ((false, "No MP4 links found after checking 1 pages"), false)
    ∧ ("No MP4 links found after checking 1 pages" : String)
        ≠ "no media links found after checking 1 pages" := by
  refine ⟨by decide, by decide⟩

/-- C7 (amended): whenever the page fetch succeeds, at least one detail
page is found and the Resolver succeeds on none of them, the pipeline
returns the failure pair `False` with message
`"No MP4 links found after checking N pages"`, where `N` is the number
of detail pages attempted. -/
theorem c7_failure_message (title : String) (number : Nat) (identifier : String) (env : AzEnv)
    (st : Nat) (doc : List MAnchor)
    (hpage : env.page = .ok (st, doc)) (hst : st < 400)
    (_hord : ValidSetOrder doc env.order)
    (hne : get_video_detail_pages env.order ≠ [])
    (hfail : ∀ u ∈ get_video_detail_pages env.order,
      (find_mp4_on_detail_page (env.detail u)).1 = none) :
    az_download_logic title number identifier env
      = ((false, "No MP4 links found after checking "
          ++ toString (get_video_detail_pages env.order).length ++ " pages"), false) := by
  have hlinks : resolve_mp4_links env.detail (get_video_detail_pages env.order) = [] := by
    rw [resolve_mp4_links, List.filterMap_eq_nil_iff]
    intro u hu
    have h1 := hfail u hu
    rcases hfd : find_mp4_on_detail_page (env.detail u) with ⟨o1, o2⟩
    rw [hfd] at h1
    cases o1 with
    | some m => simp at h1
    | none => rfl
  have hempty : (get_video_detail_pages env.order).isEmpty = false := by
    cases hgu : (get_video_detail_pages env.order).isEmpty
    · rfl
    · exact absurd (List.isEmpty_iff.mp hgu) hne
  unfold az_download_logic az_body
  rw [hpage]
  dsimp only
  rw [if_neg (by omega : ¬ 400 ≤ st)]
  rw [hempty, hlinks]
  simp

theorem c7_failure_message_witness :
    az_download_logic "t" 1 "id" c7env
      = ((false, "No MP4 links found after checking "
          ++ toString (get_video_detail_pages c7env.order).length ++ " pages"), false) :=
  c7_failure_message "t" 1 "id" c7env 200 [⟨"a.html", some "video", ""⟩] rfl (by omega)
    (by decide) (by decide) (by decide)

/-! ## Claim C10 -/

/-- C10: the sequence-number counter advances only on success.  The
numbers written on `DONE` rows are exactly `m0+1, m0+2, …`, consecutive
with no gaps (so after a failed row, the next successful row receives
the number the failed one would have received), every `DONE` row
carries a number, and every `FAILED` row has a blank number cell. -/
theorem c10_consecutive_numbering :
    ∀ (rows : List (Nat × Bool × String)) (m0 : Nat),
      (main_loop rows m0).filterMap (fun u => u.number)
        = (List.range (rows.countP (fun r => r.2.1))).map (fun k => m0 + k + 1)
      ∧ ((main_loop rows m0).all
          (fun u => (u.status == "DONE" && u.number.isSome)
            || (u.status == "FAILED" && u.number == none)) = true) := by
  intro rows
  induction rows with
  | nil => intro m0; exact ⟨by simp [main_loop], by simp [main_loop]⟩
  | cons r t ih =>
    intro m0
    obtain ⟨row, ok, msg⟩ := r
    cases ok with
    | false =>
      refine ⟨?_, ?_⟩
      · have h1 := (ih m0).1
        simp [main_loop, List.countP_cons, h1]
      · have h2 := (ih m0).2
        simp [main_loop, h2]
    | true =>
      refine ⟨?_, ?_⟩
      · have h1 := (ih (m0 + 1)).1
        simp only [main_loop, if_pos, List.filterMap_cons, List.countP_cons]
        simp only [h1]
        rw [List.range_succ_eq_map]
        simp only [List.map_cons, List.map_map]
        refine congrArg₂ _ (by omega) ?_
        refine List.map_congr_left ?_
        intro a _
        simp [Function.comp]
        omega
      · have h2 := (ih (m0 + 1)).2
        simp [main_loop, h2]
